import Mathlib

/-!
Verification of the candidate aggregation → relevance scoring → LLM re-ranking
pipeline of the recommendation service.

The Python modules `app/relevance_scorer.py`, `app/recommendation_refiner.py`,
`app/data_sources/manager.py`, `app/recommendation_engine.py`, `app/main.py`
and `app/database.py` are shallowly embedded below.  Python dictionaries with
possibly-missing or null keys are modelled with `PyField` (absent / null /
value); Python exceptions are modelled with `Except PyExc`; external
collaborators (the TF-IDF vectorizer of sklearn, numpy's `log1p`, dateutil's
date parsing, the Gemini HTTP API, the regex/JSON extraction of `re`/`json`,
and the data-source connectors) are passed in as explicit oracle parameters,
so every theorem quantifies over their behaviour.
-/

/-- A Python exception class, as far as the embedded code distinguishes them. -/
inductive PyExc where
  | runtimeError
  | typeError
  | valueError
  | jsonDecodeError
  | requestException
  | attributeError
  | indexError
  | keyError
  | httpException
deriving DecidableEq, Repr

/-- A dictionary entry that may be missing, present-but-`None`, or a value.
`dict.get(k, default)` returns `default` only for `absent`; a `null` entry
yields Python `None`, on which attribute access or iteration raises. -/
inductive PyField (α : Type) where
  | absent : PyField α
  | null : PyField α
  | val : α → PyField α
deriving DecidableEq, Repr

/-- Key present in the dict (regardless of its value being `None`). -/
def PyField.present {α : Type} : PyField α → Bool
  | .absent => false
  | _ => true

/-- The `demographics` sub-dictionary of a user profile. -/
structure Demographics where
  skills : PyField (List String) := .absent
  industries : PyField (List String) := .absent
  experience : PyField String := .absent
deriving DecidableEq, Repr

/-- The `preferences` sub-dictionary of a user profile. -/
structure Preferences where
  role : PyField String := .absent
  location : PyField String := .absent
  remote : PyField Bool := .absent
  hybrid : PyField Bool := .absent
  companies : PyField (List String) := .absent
deriving DecidableEq, Repr

/-- A user profile dictionary (the keys the embedded code reads). -/
structure Profile where
  user_id : PyField String := .absent
  interests : PyField (List String) := .absent
  preferences : PyField Preferences := .absent
  demographics : PyField Demographics := .absent
deriving DecidableEq, Repr

/-- Python truthiness of the profile dict: non-empty, i.e. at least one key
present (over the keys the code models). -/
def Profile.truthy (p : Profile) : Bool :=
  p.user_id.present || p.interests.present || p.preferences.present || p.demographics.present

/-- A candidate record (web result / job / book / movie) as one mutable dict.
String fields use `""` for an absent key, mirroring `job.get(k, "")`;
`posted_date`, `relevance_score`, `explanation`, `gemini_relevance_score`
keep explicit absence because the code distinguishes it. -/
structure Job where
  title : String := ""
  description : String := ""
  company : String := ""
  location : String := ""
  link : String := ""
  source : String := ""
  posted_date : Option String := none
  relevance_score : Option ℚ := none
  explanation : Option String := none
  gemini_relevance_score : Option Int := none
deriving DecidableEq, Repr, Inhabited

/-- Python's `str.lower()` (ASCII case folding), executable on the kernel. -/
def strLower (s : String) : String := String.mk (s.data.map Char.toLower)

/-- Python's `str.strip()`: drop whitespace from both ends. -/
def strTrim (s : String) : String :=
  String.mk (((s.data.dropWhile Char.isWhitespace).reverse.dropWhile Char.isWhitespace).reverse)

/-- Python's `sep.join(parts)`. -/
def strJoin (sep : String) : List String → String
  | [] => ""
  | [x] => x
  | x :: y :: xs => x ++ sep ++ strJoin sep (y :: xs)

/-- `needle` occurs as a contiguous run inside `hay`. -/
def subList (needle : List Char) : List Char → Bool
  | [] => needle.isEmpty
  | c :: rest => needle.isPrefixOf (c :: rest) || subList needle rest

/-- Python's substring test `needle in hay` on strings. -/
def pyIn (needle hay : String) : Bool :=
  subList needle.toList hay.toList

/-! ## `app/relevance_scorer.py` — `calculate_relevance_scores`

The TF-IDF vectorizer and cosine-similarity computation (sklearn + numpy,
lines 55–78) are an external collaborator: they are modelled by the oracle
`tfidfSim : List String → Except Unit (List ℚ)` receiving `all_docs`
(candidate documents plus the profile query) and yielding the per-candidate
similarity values, or a failure (e.g. empty vocabulary).  `np.log1p` and
the dateutil-based age computation are likewise oracles. -/

/-- `user_profile.get("demographics", {})`, followed by attribute access:
a null entry raises `AttributeError` (`None.get`). -/
def getDemographics (p : Profile) : Except PyExc Demographics :=
  match p.demographics with
  | .absent => .ok {}
  | .null => .error .attributeError
  | .val d => .ok d

/-- `user_profile.get("preferences", {})`, followed by attribute access. -/
def getPreferences (p : Profile) : Except PyExc Preferences :=
  match p.preferences with
  | .absent => .ok {}
  | .null => .error .attributeError
  | .val pr => .ok pr

/-- `d.get(key, []) or []` — both a missing key and a `None` value give `[]`
(scorer lines 30–31). -/
def listField : PyField (List String) → List String
  | .val l => l
  | _ => []

/-- Scorer lines 27–36: `profile_terms` = skills ++ industries, plus the role
preference when truthy.  Note the source never reads `interests`. -/
def profileTerms (p : Profile) : Except PyExc (List String) :=
  match getDemographics p with
  | .error e => .error e
  | .ok d =>
    let terms := listField d.skills ++ listField d.industries
    match getPreferences p with
    | .error e => .error e
    | .ok pr =>
      match pr.role with
      | .val r => if r = "" then .ok terms else .ok (terms ++ [r])
      | _ => .ok terms

/-- Scorer line 39: `" ".join(profile_terms).lower().strip()`. -/
def profileQuery (p : Profile) : Except PyExc String :=
  match profileTerms p with
  | .error e => .error e
  | .ok ts => .ok (strTrim (strLower (strJoin " " ts)))

/-- Scorer lines 48–52: one lowercased document per candidate. -/
def jobDocument (j : Job) : String :=
  strTrim (strLower (j.title ++ " " ++ j.description ++ " " ++ j.company ++ " " ++ j.location))

def jobDocuments (jobs : List Job) : List String := jobs.map jobDocument

/-- `round(score, 2)` modelled on exact rationals. -/
def round2 (x : ℚ) : ℚ := (⌊x * 100 + 1 / 2⌋ : ℚ) / 100

def setScore (j : Job) (q : ℚ) : Job := { j with relevance_score := some q }

def setScore0 (j : Job) : Job := setScore j 0

/-- `preferences.get("location", "").lower()` (scorer line 86): a null value
is `None`, and `None.lower()` raises `AttributeError`. -/
def prefLocation : PyField String → Except PyExc String
  | .null => .error .attributeError
  | .absent => .ok ""
  | .val s => .ok (strLower s)

/-- `preferences.get("companies", [])` (scorer line 98): iterating over a
null value raises `TypeError`. -/
def prefCompanies : PyField (List String) → Except PyExc (List String)
  | .null => .error .typeError
  | .absent => .ok []
  | .val l => .ok l

/-- Scorer lines 81–125: the sequential boost chain applied to one candidate,
starting from the scaled base similarity.  `lg` models `np.log1p`, `daysOld`
models `parser.parse` + age-in-days (`none` = unparsable date, which is
logged and ignored). -/
def boostJob (pr : Preferences) (daysOld : String → Option Int) (lg : ℚ → ℚ)
    (j : Job) (base : ℚ) : Except PyExc ℚ :=
  match prefLocation pr.location with
  | .error e => .error e
  | .ok user_location =>
    let job_location := strLower j.location
    let s1 := if user_location ≠ "" ∧ pyIn user_location job_location then
        base + lg (base * (3 / 10)) else base
    let s2 := if pr.remote = .val true ∧ pyIn "remote" job_location then
        s1 + lg (s1 * (2 / 5))
      else if pr.hybrid = .val true ∧ pyIn "hybrid" job_location then
        s1 + lg (s1 * (3 / 10))
      else s1
    match prefCompanies pr.companies with
    | .error e => .error e
    | .ok comps =>
      let job_company := strLower j.company
      let s3 := if comps.any (fun c => pyIn (strLower c) job_company) then
          s2 + lg (s2 * (1 / 2)) else s2
      let s4 := match j.posted_date with
        | none => s3
        | some ds =>
          if ds = "" then s3
          else match daysOld ds with
            | none => s3
            | some days =>
              if days < 7 then s3 + lg (s3 * (3 / 10))
              else if days < 30 then s3 + lg (s3 * (3 / 20))
              else s3
      let src := strLower j.source
      let s5 := if src = "indeed" then s4 + lg (s4 * (1 / 20))
        else if src = "linkedin" then s4 + lg (s4 * (1 / 10))
        else s4
      .ok (round2 s5)

/-- The `for i, job in enumerate(jobs)` loop (scorer lines 81–128):
`score = scaled_scores[i]` with `scaled = similarities * 100`; a similarity
vector shorter than the job list raises `IndexError` (caught by the outer
`except Exception`). -/
def scoreJobs (pr : Preferences) (daysOld : String → Option Int) (lg : ℚ → ℚ) :
    List Job → List ℚ → Except PyExc (List Job)
  | [], _ => .ok []
  | _ :: _, [] => .error .indexError
  | j :: js, s :: ss =>
    match boostJob pr daysOld lg j (s * 100) with
    | .error e => .error e
    | .ok v =>
      match scoreJobs pr daysOld lg js ss with
      | .error e => .error e
      | .ok rest => .ok (setScore j v :: rest)

/-- Sort key of line 137: `x.get("relevance_score", 0)`. -/
def sortKey (j : Job) : ℚ := j.relevance_score.getD 0

/-- `jobs.sort(key=..., reverse=True)`: Python's sort is stable; descending
stable sorting is insertion sort with "stays in front iff its key is ≥". -/
def sortByScore (l : List Job) : List Job :=
  List.insertionSort (fun a b => sortKey b ≤ sortKey a) l

/-- The `try` block of scorer lines 57–128: vectorize (oracle), then score
each job.  Any exception inside is caught by `except Exception` in the
caller. -/
def scoreAttempt (jobs : List Job) (p : Profile)
    (tfidfSim : List String → Except Unit (List ℚ)) (lg : ℚ → ℚ)
    (daysOld : String → Option Int) (q : String) : Except PyExc (List Job) :=
  match tfidfSim (jobDocuments jobs ++ [q]) with
  | .error _ => .error .valueError
  | .ok sims =>
    match getPreferences p with
    | .error e => .error e
    | .ok pr => scoreJobs pr daysOld lg jobs sims

/-- `calculate_relevance_scores` (scorer lines 10–139). -/
def calculate_relevance_scores (jobs : List Job) (user_profile : Profile)
    (tfidfSim : List String → Except Unit (List ℚ)) (lg : ℚ → ℚ)
    (daysOld : String → Option Int) : Except PyExc (List Job) :=
  if jobs.isEmpty || !user_profile.truthy then .ok jobs
  else
    match profileQuery user_profile with
    | .error e => .error e
    | .ok q =>
      if q = "" then .ok (jobs.map setScore0)
      else
        match scoreAttempt jobs user_profile tfidfSim lg daysOld q with
        | .ok scored => .ok (sortByScore scored)
        | .error _ => .ok (sortByScore (jobs.map setScore0))

/-! ### Generic facts about the stable descending sort -/

/-- The records of `l` whose final score equals `q`, in list order. -/
def scoreFilter (q : ℚ) (l : List Job) : List Job :=
  l.filter (fun j => decide (sortKey j = q))

theorem scoreFilter_orderedInsert (q : ℚ) (x : Job) (l : List Job) :
    scoreFilter q (List.orderedInsert (fun a b => sortKey b ≤ sortKey a) x l)
      = scoreFilter q (x :: l) := by
  induction l with
  | nil => rfl
  | cons y ys ih =>
    by_cases h : sortKey y ≤ sortKey x
    · simp only [List.orderedInsert, if_pos h]
    · simp only [List.orderedInsert, if_neg h]
      by_cases hx : sortKey x = q
      · have hy : ¬ sortKey y = q := fun hyq => h (le_of_eq (hx ▸ hyq))
        simp only [scoreFilter, List.filter_cons] at ih ⊢
        simp [hx, hy] at ih ⊢
        exact ih
      · simp only [scoreFilter, List.filter_cons] at ih ⊢
        by_cases hy : sortKey y = q
        · simp [hx, hy] at ih ⊢
          exact ih
        · simp [hx, hy] at ih ⊢
          exact ih

theorem scoreFilter_sortByScore (q : ℚ) (l : List Job) :
    scoreFilter q (sortByScore l) = scoreFilter q l := by
  induction l with
  | nil => rfl
  | cons x xs ih =>
    have h1 : sortByScore (x :: xs)
        = List.orderedInsert (fun a b => sortKey b ≤ sortKey a) x (sortByScore xs) := rfl
    rw [h1, scoreFilter_orderedInsert]
    simp only [scoreFilter, List.filter_cons] at ih ⊢
    by_cases hx : sortKey x = q
    · simp [hx] at ih ⊢; exact ih
    · simp [hx] at ih ⊢; exact ih

theorem sortByScore_sorted (l : List Job) :
    List.Pairwise (fun a b => sortKey b ≤ sortKey a) (sortByScore l) := by
  haveI : IsTotal Job (fun a b => sortKey b ≤ sortKey a) :=
    ⟨fun a b => le_total (sortKey b) (sortKey a)⟩
  haveI : IsTrans Job (fun a b => sortKey b ≤ sortKey a) :=
    ⟨fun _ _ _ h1 h2 => le_trans h2 h1⟩
  exact List.sorted_insertionSort _ l

theorem sortByScore_perm (l : List Job) : (sortByScore l).Perm l :=
  List.perm_insertionSort _ l

theorem pairwise_key_const (c : ℚ) : ∀ l : List Job, (∀ j ∈ l, sortKey j = c) →
    List.Pairwise (fun a b => sortKey b ≤ sortKey a) l := by
  intro l h
  induction l with
  | nil => exact List.Pairwise.nil
  | cons x xs ih =>
    refine List.Pairwise.cons (fun b hb => ?_) (ih fun j hj => h j (List.mem_cons_of_mem _ hj))
    rw [h b (List.mem_cons_of_mem _ hb), h x (List.mem_cons_self x xs)]

/-- A record with its (mutable) `relevance_score` entry erased: the identity
of a candidate record, independent of the score the scorer writes into it. -/
def stripScore (j : Job) : Job := { j with relevance_score := none }

theorem stripScore_setScore (j : Job) (v : ℚ) : stripScore (setScore j v) = stripScore j := rfl

theorem map_strip_setScore0 (l : List Job) :
    (l.map setScore0).map stripScore = l.map stripScore := by
  induction l with
  | nil => rfl
  | cons x xs ih => simp only [List.map_cons, ih]; rfl

theorem scoreJobs_strip (pr : Preferences) (d : String → Option Int) (lg : ℚ → ℚ) :
    ∀ js ss out, scoreJobs pr d lg js ss = .ok out →
      out.map stripScore = js.map stripScore := by
  intro js
  induction js with
  | nil => intro ss out h; cases ss <;> simp [scoreJobs] at h <;> simp [← h]
  | cons j js ih =>
    intro ss out h
    cases ss with
    | nil => simp [scoreJobs] at h
    | cons s ss =>
      simp only [scoreJobs] at h
      cases hb : boostJob pr d lg j (s * 100) with
      | error e => rw [hb] at h; cases h
      | ok v =>
        rw [hb] at h
        cases hr : scoreJobs pr d lg js ss with
        | error e => rw [hr] at h; cases h
        | ok rest =>
          rw [hr] at h
          cases h
          simp only [List.map_cons, stripScore_setScore, ih ss rest hr]

theorem scoreAttempt_strip (jobs : List Job) (p : Profile)
    (tfidfSim : List String → Except Unit (List ℚ)) (lg : ℚ → ℚ)
    (d : String → Option Int) (q : String) (scored : List Job)
    (h : scoreAttempt jobs p tfidfSim lg d q = .ok scored) :
    scored.map stripScore = jobs.map stripScore := by
  unfold scoreAttempt at h
  cases hs : tfidfSim (jobDocuments jobs ++ [q]) with
  | error e => rw [hs] at h; cases h
  | ok sims =>
    rw [hs] at h
    cases hp : getPreferences p with
    | error e => rw [hp] at h; cases h
    | ok pr => rw [hp] at h; exact scoreJobs_strip pr d lg jobs sims scored h

/-- Claim C3: For every non-empty candidate list and non-empty (truthy) profile,
whenever `calculate_relevance_scores` returns a list, that list is sorted in
descending order of `relevance_score`, and records with equal scores keep
their relative input order: the output filtered to any score value `q`
coincides with some input-aligned scored list (`pre`, the input records in
input order with only their `relevance_score` entries rewritten) filtered to
`q` — the stable-sort property. -/
theorem scorer_sorted_stable (jobs : List Job) (p : Profile)
    (tfidfSim : List String → Except Unit (List ℚ)) (lg : ℚ → ℚ)
    (d : String → Option Int) (out : List Job)
    (hne : jobs ≠ []) (htr : p.truthy = true)
    (h : calculate_relevance_scores jobs p tfidfSim lg d = .ok out) :
    List.Pairwise (fun a b => sortKey b ≤ sortKey a) out ∧
      ∃ pre, pre.map stripScore = jobs.map stripScore ∧
        ∀ q : ℚ, scoreFilter q out = scoreFilter q pre := by
  have hcond : (jobs.isEmpty || !p.truthy) = false := by
    cases jobs with
    | nil => exact absurd rfl hne
    | cons a l => simp [htr]
  unfold calculate_relevance_scores at h
  rw [hcond] at h
  simp only [Bool.false_eq_true, if_false] at h
  split at h
  · cases h
  · rename_i q hq
    split at h
    · cases h
      refine ⟨?_, jobs.map setScore0, map_strip_setScore0 jobs, fun _ => rfl⟩
      apply pairwise_key_const 0
      intro j hj
      obtain ⟨x, _, hx⟩ := List.mem_map.mp hj
      rw [← hx]; rfl
    · split at h
      · rename_i scored ha
        cases h
        exact ⟨sortByScore_sorted _, scored,
          scoreAttempt_strip jobs p tfidfSim lg d q scored ha,
          fun q2 => scoreFilter_sortByScore q2 scored⟩
      · cases h
        exact ⟨sortByScore_sorted _, jobs.map setScore0, map_strip_setScore0 jobs,
          fun q2 => scoreFilter_sortByScore q2 _⟩

/-- Witness for C3 at a concrete input (one candidate, a truthy profile whose
profile document is empty, so every score is zeroed). -/
theorem scorer_sorted_stable_witness :
    List.Pairwise (fun a b => sortKey b ≤ sortKey a) [setScore0 { title := "t" }] ∧
      ∃ pre, pre.map stripScore = ([{ title := "t" }] : List Job).map stripScore ∧
        ∀ q : ℚ, scoreFilter q [setScore0 { title := "t" }] = scoreFilter q pre :=
  scorer_sorted_stable [{ title := "t" }] { user_id := .val "u" }
    (fun _ => .error ()) (fun x => x) (fun _ => none) [setScore0 { title := "t" }]
    (List.cons_ne_nil _ _) rfl rfl

/-- Claim C9: On every path on which the scorer returns a list (empty input,
falsy profile, empty profile document, successful scoring, vectorization
failure), the returned records are a permutation of the input records — none
lost, none added — up to the in-place rewrite of their `relevance_score`
entries (erased by `stripScore` on both sides). -/
theorem scorer_permutation (jobs : List Job) (p : Profile)
    (tfidfSim : List String → Except Unit (List ℚ)) (lg : ℚ → ℚ)
    (d : String → Option Int) (out : List Job)
    (h : calculate_relevance_scores jobs p tfidfSim lg d = .ok out) :
    (out.map stripScore).Perm (jobs.map stripScore) := by
  unfold calculate_relevance_scores at h
  split at h
  · cases h; exact List.Perm.refl _
  · split at h
    · cases h
    · rename_i q hq
      split at h
      · cases h
        rw [map_strip_setScore0]
      · split at h
        · rename_i scored ha
          cases h
          have hp : (sortByScore scored).Perm scored := sortByScore_perm scored
          have := hp.map stripScore
          rwa [scoreAttempt_strip jobs p tfidfSim lg d q scored ha] at this
        · cases h
          have hp := (sortByScore_perm (jobs.map setScore0)).map stripScore
          rwa [map_strip_setScore0] at hp

/-- Witness for C9 at a concrete input (two candidates, falsy profile:
the list comes back unchanged). -/
theorem scorer_permutation_witness :
    (([{ title := "a" }, { title := "b", link := "x" }] : List Job).map stripScore).Perm
      (([{ title := "a" }, { title := "b", link := "x" }] : List Job).map stripScore) :=
  scorer_permutation [{ title := "a" }, { title := "b", link := "x" }] {}
    (fun _ => .ok [1, 2]) (fun _ => 0) (fun _ => none) _ rfl

/-- The interests-only profile of the repo's test `test_exact_vs_partial_matches`. -/
def interestsOnlyProfile : Profile := { interests := .val ["Python programming"] }

def tutorialJob : Job :=
  { title := "Python programming tutorial", description := "Learn Python programming basics" }

def languagesJob : Job :=
  { title := "Programming languages", description := "Overview of programming languages" }

/-- Claim C5: Evaluation at the failing input: for the profile of the repo's
own test `test_exact_vs_partial_matches` — `interests` non-empty, skills,
industries and role all absent — the assembled profile document is empty
(the scorer never reads `interests`), so the zero-score early-return path IS
taken: every candidate comes back with `relevance_score = 0` in unchanged
order, for any vectorizer behaviour.  This contradicts the claim that a
non-empty `interests` list yields a non-empty profile document. -/
theorem scorer_ignores_interests :
    profileQuery interestsOnlyProfile = .ok "" ∧
    calculate_relevance_scores [tutorialJob, languagesJob] interestsOnlyProfile
        (fun _ => .ok [1, 1 / 2]) (fun x => x) (fun _ => none)
      = .ok [setScore0 tutorialJob, setScore0 languagesJob] :=
  ⟨rfl, rfl⟩

/-- Claim C6 (amended): For a non-empty candidate list and a profile that is
non-empty as a dict, whose `demographics` and `preferences` entries are not
null, and whose `interests`, `demographics.skills`, `demographics.industries`
and `preferences.role` are all empty or null, the scorer sets every record's
`relevance_score` to 0 and returns the list in unchanged input order, without
consulting the similarity oracle (the result is the same for every oracle). -/
theorem scorer_empty_profile_doc (p : Profile)
    (htr : p.truthy = true)
    (hint : ∀ l, p.interests = .val l → l = [])
    (hd : p.demographics ≠ .null)
    (hp : p.preferences ≠ .null)
    (hsk : ∀ dm, p.demographics = .val dm →
      listField dm.skills = [] ∧ listField dm.industries = [])
    (hrole : ∀ pr r, p.preferences = .val pr → pr.role = .val r → r = "")
    (jobs : List Job) (hne : jobs ≠ [])
    (tfidfSim : List String → Except Unit (List ℚ)) (lg : ℚ → ℚ)
    (d : String → Option Int) :
    calculate_relevance_scores jobs p tfidfSim lg d = .ok (jobs.map setScore0) := by
  obtain ⟨dm, hdg, hs1, hs2⟩ : ∃ dm, getDemographics p = .ok dm ∧
      listField dm.skills = [] ∧ listField dm.industries = [] := by
    cases hdm : p.demographics with
    | null => exact absurd hdm hd
    | absent => exact ⟨{}, by unfold getDemographics; rw [hdm], rfl, rfl⟩
    | val dm =>
      obtain ⟨h1, h2⟩ := hsk dm hdm
      exact ⟨dm, by unfold getDemographics; rw [hdm], h1, h2⟩
  obtain ⟨pr, hpg, hrl⟩ : ∃ pr, getPreferences p = .ok pr ∧
      (pr.role = .absent ∨ pr.role = .null ∨ pr.role = .val "") := by
    cases hpr : p.preferences with
    | null => exact absurd hpr hp
    | absent => exact ⟨{}, by unfold getPreferences; rw [hpr], Or.inl rfl⟩
    | val pr =>
      refine ⟨pr, by unfold getPreferences; rw [hpr], ?_⟩
      cases hr : pr.role with
      | absent => exact Or.inl rfl
      | null => exact Or.inr (Or.inl rfl)
      | val r => exact Or.inr (Or.inr (by rw [hrole pr r hpr hr]))
  have hterms : profileTerms p = .ok [] := by
    simp only [profileTerms, hdg, hpg]
    rcases hrl with h | h | h <;> simp [h, hs1, hs2]
  have hq : profileQuery p = .ok "" := by
    unfold profileQuery
    rw [hterms]
    rfl
  have hcond : (jobs.isEmpty || !p.truthy) = false := by
    cases jobs with
    | nil => exact absurd rfl hne
    | cons a l => simp [htr]
  unfold calculate_relevance_scores
  rw [hcond, hq]
  rfl

/-- Witness for C6 at a concrete input. -/
theorem scorer_empty_profile_doc_witness :
    calculate_relevance_scores [{ title := "Some Article", description := "Some content" }]
        { user_id := .val "u1", demographics := .val {}, preferences := .val {} }
        (fun _ => .ok [1]) (fun x => x) (fun _ => none)
      = .ok [setScore0 { title := "Some Article", description := "Some content" }] :=
  scorer_empty_profile_doc
    { user_id := .val "u1", demographics := .val {}, preferences := .val {} }
    rfl (fun _ h => nomatch h) (fun h => nomatch h) (fun h => nomatch h)
    (fun dm h => by cases h; exact ⟨rfl, rfl⟩)
    (fun pr r h hr => by cases h; cases hr)
    [{ title := "Some Article", description := "Some content" }] (List.cons_ne_nil _ _)
    (fun _ => .ok [1]) (fun x => x) (fun _ => none)

/-- Claim C6 (counterexample): The claim as stated fails at the profile `{}`
(every field absent, hence "empty or null"): the scorer takes the
falsy-profile early return instead, handing the records back unchanged with
NO `relevance_score` written — the score is absent, not 0. -/
theorem scorer_empty_profile_claim_false :
    calculate_relevance_scores [{ title := "Some Article" }] {}
        (fun _ => .ok [1]) (fun x => x) (fun _ => none)
      = .ok [{ title := "Some Article" }] ∧
    ({ title := "Some Article" } : Job).relevance_score ≠ some 0 :=
  ⟨rfl, by decide⟩

/-! ## `app/recommendation_refiner.py` — `call_gemini_api`, `refine_recommendations`

Candidate records are Python dicts held by reference, and the success path
copies them (`top_jobs[job_index].copy()`) while the fallback path returns
the input dicts themselves.  To capture this, the refiner is embedded in
store-passing style: a heap `store : List Job` maps addresses (`Nat`, indices
into the store) to records, the input list `jobs` is a list of addresses, and
`.copy()` allocates a fresh address at the end of the store.

The HTTP transport is the oracle `attempts` (the outcome of each successive
`requests.post` + `raise_for_status` + `.json()` attempt); the `re.search`
regex extraction plus `json.loads` decoding of the response text is the
oracle `parseArr` (`none` = no array found / undecodable, which the source
raises as `ValueError`/`JSONDecodeError`, both caught). -/

/-- One element of the JSON array the LLM returns (refiner lines 135–140):
a dict that may carry `job_index`, `explanation` and `relevance_score`. -/
structure RefineItem where
  job_index : Option Int := none
  explanation : Option String := none
  relevance_score : Option Int := none
deriving DecidableEq, Repr

/-- One entry of the response's `candidates` list: its
`content.parts` (each part reduced to its optional `text` field). -/
structure GemCand where
  parts : Option (List (Option String)) := none
deriving DecidableEq, Repr

/-- A decoded Gemini response body. -/
structure GemData where
  candidates : Option (List GemCand) := none
deriving DecidableEq, Repr

/-- `call_gemini_api` (refiner lines 14–28): return the first successful
attempt; once the retries are exhausted, raise `RuntimeError` (line 28).
The argument lists the outcomes of the (up to `retries = 3`) transport
attempts, so the caller passes a list of length 3. -/
def call_gemini_api : List (Except Unit GemData) → Except PyExc GemData
  | [] => .error .runtimeError
  | .ok d :: _ => .ok d
  | .error _ :: rest => call_gemini_api rest

/-- Refiner lines 119–124:
`data.get("candidates", [{}])[0].get("content", {}).get("parts", [{}])[0].get("text", "")`.
A present-but-empty `candidates` or `parts` list makes `[0]` raise
`IndexError`; missing keys fall back to defaults yielding `""`. -/
def extractText (d : GemData) : Except PyExc String :=
  match d.candidates with
  | none => .ok ""
  | some [] => .error .indexError
  | some (c :: _) =>
    match c.parts with
    | none => .ok ""
    | some [] => .error .indexError
    | some (t :: _) => .ok (t.getD "")

/-- Refiner lines 51–71, the profile formatting before the prompt (outside
the `try`): `", ".join(...get("skills", []))` raises `AttributeError` when
`demographics`/`preferences` is null and `TypeError` when `skills` or
`industries` is null (`", ".join(None)`); all other fields use raise-free
`get` chains. -/
def profileFmtCheck (p : Profile) : Except PyExc Unit :=
  match p.demographics with
  | .null => .error .attributeError
  | .absent =>
    match p.preferences with
    | .null => .error .attributeError
    | _ => .ok ()
  | .val dm =>
    if dm.skills = .null then .error .typeError
    else if dm.industries = .null then .error .typeError
    else
      match p.preferences with
      | .null => .error .attributeError
      | _ => .ok ()

/-- Refiner lines 138–140: `.copy()` the referenced record, then attach
`explanation` and `gemini_relevance_score` (with the source's defaults). -/
def augmentJob (j : Job) (it : RefineItem) : Job :=
  { j with explanation := some (it.explanation.getD "No explanation provided."),
           gemini_relevance_score := some (it.relevance_score.getD 0) }

/-- Refiner lines 134–145, in store-passing style.  `topA` holds the
addresses of the (≤ 20) truncated candidates; `item.get("job_index") - 1`
raises `TypeError` when the key is missing; in-range items append a freshly
allocated copy; the loop breaks once `limit` records are accumulated. -/
def refineLoop (topA : List Nat) (limit : Nat) :
    List RefineItem → List Nat → List Job → Except PyExc (List Nat × List Job)
  | [], acc, store => .ok (acc, store)
  | it :: rest, acc, store =>
    match it.job_index with
    | none => .error .typeError
    | some n =>
      if 0 ≤ n - 1 ∧ n - 1 < (topA.length : Int) then
        let a := topA.getD (n - 1).toNat 0
        let copied := augmentJob (store.getD a default) it
        let acc2 := acc ++ [store.length]
        let store2 := store ++ [copied]
        if limit ≤ acc2.length then .ok (acc2, store2)
        else refineLoop topA limit rest acc2 store2
      else refineLoop topA limit rest acc store

/-- The exception classes named by the `except` clause of refiner line 149:
`(requests.RequestException, json.JSONDecodeError, ValueError)`. -/
def isCaughtRefine : PyExc → Bool
  | .requestException => true
  | .jsonDecodeError => true
  | .valueError => true
  | _ => false

/-- The body of the `try` block (refiner lines 115–147). -/
def refineTryBody (store : List Job) (topA : List Nat) (limit : Nat)
    (attempts : List (Except Unit GemData))
    (parseArr : String → Option (List RefineItem)) : Except PyExc (List Nat × List Job) :=
  match call_gemini_api attempts with
  | .error e => .error e
  | .ok data =>
    match extractText data with
    | .error e => .error e
    | .ok text =>
      match parseArr text with
      | none => .error .valueError
      | some items =>
        match refineLoop topA limit items [] store with
        | .error e => .error e
        | .ok (acc, store2) => .ok (acc.take limit, store2)

/-- `refine_recommendations` (refiner lines 30–152): returns the output
addresses and the final store, or the uncaught exception. -/
def refine_recommendations (store : List Job) (jobs : List Nat) (user_profile : Profile)
    (limit : Nat) (attempts : List (Except Unit GemData))
    (parseArr : String → Option (List RefineItem)) : Except PyExc (List Nat × List Job) :=
  if jobs.isEmpty then .ok ([], store)
  else
    let top_jobs := jobs.take 20
    match profileFmtCheck user_profile with
    | .error e => .error e
    | .ok _ =>
      match refineTryBody store top_jobs limit attempts parseArr with
      | .ok r => .ok r
      | .error e =>
        if isCaughtRefine e then .ok (top_jobs.take limit, store) else .error e

theorem getD_append_left {α : Type} (l1 l2 : List α) (n : Nat) (d : α)
    (h : n < l1.length) : (l1 ++ l2).getD n d = l1.getD n d := by
  rw [List.getD_eq_getElem?_getD, List.getD_eq_getElem?_getD, List.getElem?_append_left h]

theorem getD_append_length {α : Type} (l1 : List α) (x : α) (l2 : List α) (d : α) :
    ((l1 ++ [x]) ++ l2).getD l1.length d = x := by
  have h : l1.length < (l1 ++ [x]).length := by simp
  rw [getD_append_left _ _ _ _ h, List.getD_eq_getElem?_getD, List.getElem?_concat_length]
  rfl

/-- Any successful run of the mapping loop only appends to the store:
records already in the store are untouched. -/
theorem refineLoop_extends (topA : List Nat) (limit : Nat) :
    ∀ items acc store acc2 store2,
      refineLoop topA limit items acc store = .ok (acc2, store2) →
      ∃ ext, store2 = store ++ ext := by
  intro items
  induction items with
  | nil =>
    intro acc store acc2 store2 h
    cases h
    exact ⟨[], (List.append_nil _).symm⟩
  | cons it rest ih =>
    intro acc store acc2 store2 h
    unfold refineLoop at h
    cases hn : it.job_index with
    | none => rw [hn] at h; cases h
    | some n =>
      rw [hn] at h
      dsimp only at h
      split at h
      · split at h
        · cases h
          exact ⟨[_], rfl⟩
        · obtain ⟨ext, hx⟩ := ih _ _ _ _ h
          exact ⟨_ :: ext, by rw [hx, List.append_assoc]; rfl⟩
      · exact ih _ _ _ _ h

/-- Addresses returned by the loop are either already in the accumulator or
freshly allocated (at or beyond the input store's length). -/
theorem refineLoop_fresh (topA : List Nat) (limit : Nat) :
    ∀ items acc store acc2 store2,
      refineLoop topA limit items acc store = .ok (acc2, store2) →
      ∀ a, a ∈ acc2 → a ∈ acc ∨ store.length ≤ a := by
  intro items
  induction items with
  | nil =>
    intro acc store acc2 store2 h a ha
    cases h
    exact Or.inl ha
  | cons it rest ih =>
    intro acc store acc2 store2 h a ha
    unfold refineLoop at h
    cases hn : it.job_index with
    | none => rw [hn] at h; cases h
    | some n =>
      rw [hn] at h
      dsimp only at h
      split at h
      · split at h
        · cases h
          rcases List.mem_append.mp ha with h1 | h1
          · exact Or.inl h1
          · right
            rw [List.mem_singleton.mp h1]
        · rcases ih _ _ _ _ h a ha with h1 | h1
          · rcases List.mem_append.mp h1 with h2 | h2
            · exact Or.inl h2
            · right
              rw [List.mem_singleton.mp h2]
          · right
            simp only [List.length_append, List.length_cons, List.length_nil] at h1
            omega
      · exact ih _ _ _ _ h a ha

/-- The per-item specification of the mapping loop: convert the 1-based
`job_index` to 0-based, bounds-check against the truncated list, and for an
in-range index produce the referenced base record augmented with the item's
explanation and secondary score; out-of-range items produce nothing. -/
def pickItem (base : List Job) (topA : List Nat) (it : RefineItem) : Option Job :=
  match it.job_index with
  | none => none
  | some n =>
    if 0 ≤ n - 1 ∧ n - 1 < (topA.length : Int) then
      some (augmentJob (base.getD (topA.getD (n - 1).toNat 0) default) it)
    else none

/-- The mapping loop, run over items that all carry an index, against a store
extending `base` with all of `topA` pointing into `base`: it succeeds, only
appends to the store, and — up to the final `[:limit]` — the records at the
returned addresses are exactly the in-range items' augmented copies, in item
order. -/
theorem refineLoop_ok_spec (topA : List Nat) (limit : Nat) (base : List Job)
    (hvalid : ∀ a ∈ topA, a < base.length) :
    ∀ items acc store pre, store = base ++ pre →
      (∀ it ∈ items, (it.job_index).isSome) →
      ∃ acc2 store2, refineLoop topA limit items acc store = .ok (acc2, store2) ∧
        (∃ ext, store2 = store ++ ext) ∧
        (acc2.map (fun a => store2.getD a default)).take limit
          = ((acc.map (fun a => store2.getD a default))
              ++ items.filterMap (pickItem base topA)).take limit := by
  intro items
  induction items with
  | nil =>
    intro acc store pre hpre _
    refine ⟨acc, store, rfl, ⟨[], (List.append_nil _).symm⟩, ?_⟩
    simp
  | cons it rest ih =>
    intro acc store pre hpre hidx
    have hit : (it.job_index).isSome := hidx it (List.mem_cons_self it rest)
    obtain ⟨n, hn⟩ := Option.isSome_iff_exists.mp hit
    have hrest : ∀ x ∈ rest, (x.job_index).isSome :=
      fun x hx => hidx x (List.mem_cons_of_mem _ hx)
    by_cases hin : 0 ≤ n - 1 ∧ n - 1 < (topA.length : Int)
    · -- in-range item: a fresh augmented copy is appended
      have htn : (n - 1).toNat < topA.length := by omega
      have hmem : topA.getD (n - 1).toNat 0 ∈ topA := by
        rw [List.getD_eq_getElem _ _ htn]
        exact List.getElem_mem htn
      have hlt : topA.getD (n - 1).toNat 0 < base.length := hvalid _ hmem
      have hread : store.getD (topA.getD (n - 1).toNat 0) default
          = base.getD (topA.getD (n - 1).toNat 0) default := by
        rw [hpre]; exact getD_append_left _ _ _ _ hlt
      have hpick : pickItem base topA it
          = some (augmentJob (store.getD (topA.getD (n - 1).toNat 0) default) it) := by
        unfold pickItem
        rw [hn]
        dsimp only
        rw [if_pos hin, hread]
      set copied := augmentJob (store.getD (topA.getD (n - 1).toNat 0) default) it with hcop
      by_cases hbr : limit ≤ (acc ++ [store.length]).length
      · -- the loop breaks immediately after this append
        refine ⟨acc ++ [store.length], store ++ [copied], ?_, ⟨[copied], rfl⟩, ?_⟩
        · unfold refineLoop
          rw [hn]
          dsimp only
          rw [if_pos hin, if_pos hbr]
        · have hgd : (store ++ [copied]).getD store.length default = copied := by
            have h0 := getD_append_length store copied ([] : List Job) default
            rwa [List.append_nil] at h0
          rw [List.map_append, List.filterMap_cons, hpick]
          simp only [List.map_cons, List.map_nil, hgd]
          have hlen2 : limit ≤ (List.map (fun a => (store ++ [copied]).getD a default) acc
              ++ [copied]).length := by
            simpa using hbr
          have heq2 : List.map (fun a => (store ++ [copied]).getD a default) acc
                ++ copied :: List.filterMap (pickItem base topA) rest
              = (List.map (fun a => (store ++ [copied]).getD a default) acc ++ [copied])
                ++ List.filterMap (pickItem base topA) rest := by
            simp
          rw [heq2, List.take_append_of_le_length hlen2]
      · -- accumulate and continue with the extended store
        obtain ⟨acc3, store3, hloop, ⟨ext3, hext3⟩, hmap3⟩ :=
          ih (acc ++ [store.length]) (store ++ [copied]) (pre ++ [copied])
            (by rw [hpre, List.append_assoc]) hrest
        refine ⟨acc3, store3, ?_, ⟨[copied] ++ ext3, by rw [hext3, List.append_assoc]⟩, ?_⟩
        · unfold refineLoop
          rw [hn]
          dsimp only
          rw [if_pos hin, if_neg hbr]
          exact hloop
        · have hgd : store3.getD store.length default = copied := by
            rw [hext3]; exact getD_append_length store copied ext3 default
          rw [hmap3, List.map_append, List.filterMap_cons, hpick]
          simp only [List.map_cons, List.map_nil, hgd]
          rw [List.append_assoc]
          rfl
    · -- out-of-range index: silently skipped
      obtain ⟨acc3, store3, hloop, hext3, hmap3⟩ := ih acc store pre hpre hrest
      refine ⟨acc3, store3, ?_, hext3, ?_⟩
      · unfold refineLoop
        rw [hn]
        dsimp only
        rw [if_neg hin]
        exact hloop
      · have hpick : pickItem base topA it = none := by
          unfold pickItem
          rw [hn]
          dsimp only
          rw [if_neg hin]
        rw [hmap3, List.filterMap_cons, hpick]

/-- Claim C1: Evaluation at the failing input: when every transport attempt
fails (network error on all 3 retries), `call_gemini_api` raises
`RuntimeError` (line 28), which the `except (requests.RequestException,
json.JSONDecodeError, ValueError)` clause of `refine_recommendations` does
NOT catch — the exception escapes to the caller instead of triggering the
documented fallback.  (The repo's own test
`test_refine_recommendations_api_error` asserts the fallback.) -/
theorem refiner_api_error_escapes :
    refine_recommendations [{ title := "Intro to ML" }] [0] {} 2
        [.error (), .error (), .error ()] (fun _ => none)
      = .error .runtimeError := rfl

theorem refineTryBody_len (store : List Job) (topA : List Nat) (limit : Nat)
    (attempts : List (Except Unit GemData)) (parseArr : String → Option (List RefineItem))
    (out : List Nat) (st2 : List Job)
    (h : refineTryBody store topA limit attempts parseArr = .ok (out, st2)) :
    out.length ≤ limit := by
  unfold refineTryBody at h
  split at h
  · cases h
  · split at h
    · cases h
    · split at h
      · cases h
      · split at h
        · cases h
        · rename_i acc store3 heq
          cases h
          simp [List.length_take]

/-- Claim C7 (amended): Whenever `refine_recommendations` returns a list, the
list holds at most `limit` records — on every path (empty input, success,
fallback).  The claimed stronger bound `min(limit, 20, len(candidates))`
fails on the success path (see the counterexample): the response may repeat
an in-range index, and every repetition appends another record. -/
theorem refiner_limit_bound (store : List Job) (jobs : List Nat) (p : Profile)
    (limit : Nat) (attempts : List (Except Unit GemData))
    (parseArr : String → Option (List RefineItem)) (out : List Nat) (st2 : List Job)
    (h : refine_recommendations store jobs p limit attempts parseArr = .ok (out, st2)) :
    out.length ≤ limit := by
  unfold refine_recommendations at h
  split at h
  · cases h; simp
  · split at h
    · cases h
    · dsimp only at h
      split at h
      · rename_i r heq
        cases h
        exact refineTryBody_len _ _ _ _ _ _ _ heq
      · split at h
        · cases h
          simp [List.length_take]
        · cases h

/-- Witness for C7's amended bound at a concrete input (fallback path:
the response text holds no JSON array). -/
theorem refiner_limit_bound_witness : ([0] : List Nat).length ≤ 1 :=
  refiner_limit_bound [{ title := "a" }, { title := "b" }] [0, 1] {} 1
    [.ok { candidates := some [{ parts := some [some "no array here"] }] }]
    (fun _ => none) [0] [{ title := "a" }, { title := "b" }] rfl

/-- Claim C7 (counterexample): With one candidate and `limit = 2`, an LLM
response repeating the in-range index 1 twice makes the success path return
2 records, exceeding `min(limit, 20, len(candidates)) = 1`: the input is
truncated to 20 before the prompt, but repeated indices defeat the
`min(20, len)` part of the claimed bound. -/
theorem refiner_bound_counterexample :
    (refine_recommendations [{ title := "only" }] [0] {} 2
        [.ok { candidates := some [{ parts := some [some "resp"] }] }]
        (fun _ => some [{ job_index := some 1, explanation := some "x", relevance_score := some 80 },
                        { job_index := some 1, explanation := some "x", relevance_score := some 80 }])).map
        (fun r => r.1.length)
      = .ok 2 ∧
    ¬ (2 ≤ min 2 (min 20 ([0] : List Nat).length)) :=
  ⟨rfl, by decide⟩

/-- Claim C8: When the call succeeds, the response text parses to a JSON array
of items all carrying an index, and the candidate list is non-empty, the
returned records are exactly: for each item, in response order, the 1-based
index converted to 0-based, silently skipped when out of range of the
truncated (≤ 20) list, otherwise a copy of the referenced candidate record
augmented with the item's explanation and secondary score — truncated to the
first `limit` records (`pickItem`/`filterMap`/`take` is that specification,
the code is the accumulating loop with an early break). -/
theorem refiner_index_remap (store : List Job) (jobs : List Nat) (p : Profile)
    (limit : Nat) (attempts : List (Except Unit GemData))
    (parseArr : String → Option (List RefineItem)) (d : GemData) (text : String)
    (items : List RefineItem) (out : List Nat) (st2 : List Job)
    (hvalid : ∀ a ∈ jobs, a < store.length)
    (hne : jobs ≠ [])
    (hfmt : profileFmtCheck p = .ok ())
    (hcall : call_gemini_api attempts = .ok d)
    (htext : extractText d = .ok text)
    (hparse : parseArr text = some items)
    (hidx : ∀ it ∈ items, (it.job_index).isSome)
    (h : refine_recommendations store jobs p limit attempts parseArr = .ok (out, st2)) :
    out.map (fun a => st2.getD a default)
      = (items.filterMap (pickItem store (jobs.take 20))).take limit := by
  have hvz : ∀ a ∈ jobs.take 20, a < store.length :=
    fun a ha => hvalid a ((List.take_sublist 20 jobs).mem ha)
  obtain ⟨acc2, store2, hloop, hext, hmap⟩ :=
    refineLoop_ok_spec (jobs.take 20) limit store hvz items [] store []
      (List.append_nil store).symm hidx
  have htb : refineTryBody store (jobs.take 20) limit attempts parseArr
      = .ok (acc2.take limit, store2) := by
    unfold refineTryBody
    rw [hcall]
    dsimp only
    rw [htext]
    dsimp only
    rw [hparse]
    dsimp only
    rw [hloop]
  have hje : jobs.isEmpty = false := by
    cases jobs with
    | nil => exact absurd rfl hne
    | cons a l => rfl
  have hre : refine_recommendations store jobs p limit attempts parseArr
      = .ok (acc2.take limit, store2) := by
    unfold refine_recommendations
    rw [hje]
    simp only [Bool.false_eq_true, if_false]
    rw [hfmt]
    dsimp only
    rw [htb]
  rw [hre] at h
  injection h with h2
  injection h2 with ho hs
  subst ho
  subst hs
  rw [List.map_take, hmap]
  simp

/-- Witness data for C8: three candidates and a response selecting the
second (1-based index 2). -/
def wjA : Job := { title := "A" }

def wjB : Job := { title := "B" }

def wjC : Job := { title := "C" }

def witItem : RefineItem := { job_index := some 2, explanation := some "x", relevance_score := some 80 }

/-- Witness for C8 at a concrete input: the single returned record is the
0-based candidate 1 (`wjB`) augmented with the item's explanation and score. -/
theorem refiner_index_remap_witness :
    ([3] : List Nat).map (fun a => ([wjA, wjB, wjC, augmentJob wjB witItem]).getD a default)
      = (([witItem].filterMap (pickItem [wjA, wjB, wjC] ([0, 1, 2].take 20))).take 10) :=
  refiner_index_remap [wjA, wjB, wjC] [0, 1, 2] {} 10
    [.ok { candidates := some [{ parts := some [some "resp"] }] }]
    (fun _ => some [witItem])
    { candidates := some [{ parts := some [some "resp"] }] } "resp" [witItem] [3]
    [wjA, wjB, wjC, augmentJob wjB witItem]
    (by decide) (by decide) rfl rfl rfl rfl (by decide) rfl

/-- The only exception the mapping loop itself raises is the `TypeError`
from `item.get("job_index") - 1` on a missing index. -/
theorem refineLoop_error_ty (topA : List Nat) (limit : Nat) :
    ∀ items acc store e, refineLoop topA limit items acc store = .error e →
      e = .typeError := by
  intro items
  induction items with
  | nil => intro acc store e h; cases h
  | cons it rest ih =>
    intro acc store e h
    unfold refineLoop at h
    cases hn : it.job_index with
    | none =>
      rw [hn] at h
      dsimp only at h
      injection h with h1
      exact h1.symm
    | some n =>
      rw [hn] at h
      dsimp only at h
      split at h
      · split at h
        · cases h
        · exact ih _ _ _ h
      · exact ih _ _ _ h

/-- Inversion of a successful `try`-block run. -/
theorem refineTryBody_inv (store : List Job) (topA : List Nat) (limit : Nat)
    (attempts : List (Except Unit GemData)) (parseArr : String → Option (List RefineItem))
    (out : List Nat) (st2 : List Job)
    (h : refineTryBody store topA limit attempts parseArr = .ok (out, st2)) :
    ∃ d text items acc, call_gemini_api attempts = .ok d ∧ extractText d = .ok text ∧
      parseArr text = some items ∧
      refineLoop topA limit items [] store = .ok (acc, st2) ∧ out = acc.take limit := by
  unfold refineTryBody at h
  split at h
  · cases h
  · rename_i d hcall
    split at h
    · cases h
    · rename_i text htext
      split at h
      · cases h
      · rename_i items hparse
        split at h
        · cases h
        · rename_i acc store3 hloop
          cases h
          exact ⟨d, text, items, acc, hcall, htext, hparse, hloop, rfl⟩

/-- Claim C10: Frame/copy semantics of the re-ranker: (a) on every returning
path, no record of the input store is modified — in particular no input
record gains an `explanation`; (b) on the success path every returned
address is freshly allocated (a copy), never one of the input records;
(c) on the caught-failure fallback path, the returned addresses are the
input records themselves (the truncated prefix), and the store is untouched. -/
theorem refiner_copy_frame (store : List Job) (jobs : List Nat) (p : Profile)
    (limit : Nat) (attempts : List (Except Unit GemData))
    (parseArr : String → Option (List RefineItem)) (out : List Nat) (st2 : List Job)
    (h : refine_recommendations store jobs p limit attempts parseArr = .ok (out, st2)) :
    (∀ i, i < store.length → st2.getD i default = store.getD i default) ∧
    ((∃ d text items, call_gemini_api attempts = .ok d ∧ extractText d = .ok text ∧
        parseArr text = some items) →
      ∀ a ∈ out, store.length ≤ a) ∧
    (∀ e, refineTryBody store (jobs.take 20) limit attempts parseArr = .error e →
      isCaughtRefine e = true → out = (jobs.take 20).take limit ∧ st2 = store) := by
  unfold refine_recommendations at h
  split at h
  · rename_i hje
    cases h
    have hj : jobs = [] := List.isEmpty_iff.mp hje
    refine ⟨fun i _ => rfl, fun _ a ha => absurd ha (List.not_mem_nil a), ?_⟩
    intro e _ _
    subst hj
    exact ⟨by simp, rfl⟩
  · split at h
    · cases h
    · dsimp only at h
      split at h
      · rename_i r htb
        cases h
        obtain ⟨d, text, items, acc, hcall, htext, hparse, hloop, hout⟩ :=
          refineTryBody_inv _ _ _ _ _ _ _ htb
        obtain ⟨ext, hext⟩ := refineLoop_extends _ _ _ _ _ _ _ hloop
        refine ⟨?_, ?_, ?_⟩
        · intro i hi
          rw [hext]
          exact getD_append_left _ _ _ _ hi
        · intro _ a ha
          have hacc : a ∈ acc := (List.take_sublist _ _).mem (hout ▸ ha)
          rcases refineLoop_fresh _ _ _ _ _ _ _ hloop a hacc with h1 | h1
          · exact absurd h1 (List.not_mem_nil a)
          · exact h1
        · intro e he
          rw [he] at htb
          cases htb
      · rename_i e htb
        split at h
        · rename_i hcaught
          cases h
          refine ⟨fun i _ => rfl, ?_, fun e2 he2 _ => ?_⟩
          · rintro ⟨d, text, items, hcall, htext, hparse⟩ a ha
            unfold refineTryBody at htb
            rw [hcall] at htb
            dsimp only at htb
            rw [htext] at htb
            dsimp only at htb
            rw [hparse] at htb
            dsimp only at htb
            split at htb
            · rename_i e3 hloop
              injection htb with hee
              have hty := refineLoop_error_ty _ _ _ _ _ _ hloop
              rw [← hee, hty] at hcaught
              cases hcaught
            · cases htb
          · rw [htb] at he2
            injection he2 with he3
            exact ⟨rfl, rfl⟩
        · cases h

/-- Witness data for C10: one input record and a response selecting it. -/
def wBase : Job := { title := "base" }

def wC10item : RefineItem := { job_index := some 1, explanation := some "e", relevance_score := some 50 }

def wC10parse : String → Option (List RefineItem) := fun _ => some [wC10item]

def wC10att : List (Except Unit GemData) :=
  [.ok { candidates := some [{ parts := some [some "t"] }] }]

/-- Witness for C10 at a concrete success-path input: the input record at
address 0 is unchanged in the final store, and the returned address 1 is the
fresh copy. -/
theorem refiner_copy_frame_witness :
    (∀ i, i < ([wBase] : List Job).length →
      ([wBase, augmentJob wBase wC10item] : List Job).getD i default
        = ([wBase] : List Job).getD i default) ∧
    ((∃ d text items, call_gemini_api wC10att = .ok d ∧ extractText d = .ok text ∧
        wC10parse text = some items) →
      ∀ a ∈ ([1] : List Nat), ([wBase] : List Job).length ≤ a) ∧
    (∀ e, refineTryBody [wBase] (([0] : List Nat).take 20) 5 wC10att wC10parse = .error e →
      isCaughtRefine e = true →
      ([1] : List Nat) = ((([0] : List Nat).take 20)).take 5 ∧
        ([wBase, augmentJob wBase wC10item] : List Job) = [wBase]) :=
  refiner_copy_frame [wBase] [0] {} 5 wC10att wC10parse [1]
    [wBase, augmentJob wBase wC10item] rfl

/-! ## `app/data_sources/manager.py` — the Aggregator

The connectors (`fetch_search_results`, `fetch_books_data`,
`fetch_movies_data`) are external collaborators; their result lists are
passed in as oracle parameters in invocation order. -/

/-- The static keyword-to-source table of `get_data_sources_for_interests`
(manager lines 7–12), in declaration order. -/
def source_mapping : List (String × List String) :=
  [("books", ["books", "reading", "literature"]),
   ("movies", ["movies", "films", "cinema"]),
   ("tech", ["technology", "programming", "coding", "software", "AI", "artificial intelligence"])]

/-- `get_data_sources_for_interests` (manager lines 5–21): a source is active
iff one of its synonyms equals (case-insensitively) one of the interests.
The Python version collects the active names in a `set` and returns
`list(set)`, whose order is unspecified; only membership is ever consumed, so
the model keeps the mapping's order. -/
def get_data_sources_for_interests (interests : List String) : List String :=
  let interests_lower := interests.map strLower
  (source_mapping.filter (fun sm => sm.2.any (fun ri => interests_lower.contains (strLower ri)))).map
    (fun sm => sm.1)

/-- `user_profile.get("interests", [])` plus the `isinstance(..., list)`
guard (manager lines 41–44): anything that is not a list — including a
null — defaults to `[]`. -/
def profileInterests (p : Profile) : List String :=
  match p.interests with
  | .val l => l
  | _ => []

/-- `fetch_from_all_sources` (manager lines 23–59): always take the
web-search results, then extend with books and movies results when their
sources are active.  NOTE: the records are concatenated as-is — there is no
deduplication anywhere in this function. -/
def fetch_from_all_sources (query : String) (user_profile : Profile)
    (webResults bookResults movieResults : List Job) : List Job :=
  let active := get_data_sources_for_interests (profileInterests user_profile)
  let all1 := webResults
  let all2 := all1 ++ (if active.contains "books" then bookResults else [])
  all2 ++ (if active.contains "movies" then movieResults else [])

/-- Claim C2 (counterexample): With `interests = ["books"]`, a web record and a
book record sharing the link `"x"` BOTH appear in the merged output: the
output does not contain exactly one record with that link, falsifying the
last-writer-wins dedup claim. -/
theorem aggregator_dedup_counterexample :
    ((fetch_from_all_sources "q" { interests := .val ["books"] }
        [{ title := "w", link := "x" }] [{ title := "b", link := "x" }] []).filter
      (fun r => r.link == "x")).length ≠ 1 := by decide

/-- Claim C2 (amended): The aggregator concatenates connector outputs in
invocation order with no deduplication: when the web connector contributes
exactly one record with link `L` and the (active) books connector exactly one
more, the merged output contains exactly those two records with link `L`,
the earlier connector's first. -/
theorem aggregator_no_dedup (query : String) (p : Profile)
    (web books movies : List Job) (L : String) (wr br : Job)
    (hact : (get_data_sources_for_interests (profileInterests p)).contains "books" = true)
    (hmv : (get_data_sources_for_interests (profileInterests p)).contains "movies" = false)
    (hw : web.filter (fun r => r.link == L) = [wr])
    (hb : books.filter (fun r => r.link == L) = [br]) :
    (fetch_from_all_sources query p web books movies).filter (fun r => r.link == L)
      = [wr, br] := by
  unfold fetch_from_all_sources
  dsimp only
  rw [hact, hmv]
  simp only [if_true, Bool.false_eq_true, if_false, List.append_nil, List.filter_append, hw, hb]
  rfl

/-- Witness for C2's amended statement at a concrete input. -/
theorem aggregator_no_dedup_witness :
    (fetch_from_all_sources "ai" { interests := .val ["Books"] }
        [{ title := "w1", link := "u" }] [{ title := "b1", link := "u" }]
        [{ title := "m1", link := "u" }]).filter (fun r => r.link == "u")
      = [{ title := "w1", link := "u" }, { title := "b1", link := "u" }] :=
  aggregator_no_dedup "ai" { interests := .val ["Books"] }
    [{ title := "w1", link := "u" }] [{ title := "b1", link := "u" }]
    [{ title := "m1", link := "u" }] "u"
    { title := "w1", link := "u" } { title := "b1", link := "u" }
    (by decide) (by decide) (by decide) (by decide)

/-! ## Caching across `app/database.py`, `app/recommendation_engine.py`, `app/main.py`

Redis is one shared key-value map; MongoDB is a user-id-keyed profile store;
`app/main.py` additionally keeps an in-process `functools.lru_cache` of
profiles.  TTLs: every `setex` uses the 300-second `CACHE_EXPIRATION`; the
model covers request sequences within one TTL window, so entries never
expire.  `main.get_recommendations` calls the engine's recommendation
generator (`generate_job_recommendations`, the only generator the engine
module defines); the pipeline stages it invokes (query generation, fetching,
scoring, refining) enter as oracle parameters since C4 is about the caches
around them. -/

/-- A value stored in Redis (after `json.loads`). -/
inductive RVal where
  | profile (p : Profile)
  | recs (l : List Job)
deriving DecidableEq, Repr

/-- The Redis keyspace, newest binding first. -/
def Redis : Type := List (String × RVal)

def rget (st : Redis) (k : String) : Option RVal :=
  match List.find? (fun kv => kv.1 == k) st with
  | some kv => some kv.2
  | none => none

/-- `setex` (the TTL is not modelled; see the section comment). -/
def rset (st : Redis) (k : String) (v : RVal) : Redis := (k, v) :: st

def rdel (st : Redis) (k : String) : Redis :=
  List.filter (fun kv => !(kv.1 == k)) st

/-- Python's `str.startswith` on the raw characters. -/
def strPrefix (pre s : String) : Bool := pre.data.isPrefixOf s.data

/-- `redis.keys(pattern + "*")` followed by deleting every match:
drop all keys having the given prefix. -/
def rdelPrefix (st : Redis) (pre : String) : Redis :=
  List.filter (fun kv => !(strPrefix pre kv.1)) st

/-- The MongoDB `users` collection, keyed by `user_id`. -/
def Mongo : Type := List (String × Profile)

def mongoGet (db : Mongo) (uid : String) : Option Profile :=
  match List.find? (fun kv => kv.1 == uid) db with
  | some kv => some kv.2
  | none => none

def mongoUpsert (db : Mongo) (uid : String) (p : Profile) : Mongo :=
  (uid, p) :: List.filter (fun kv => !(kv.1 == uid)) db

def userProfileKey (uid : String) : String := "user_profile:" ++ uid

/-- `f"job_recommendations:{user_id}:{cache_params}:{limit}"` (engine line 72). -/
def jobRecKey (uid cacheParams : String) (limit : Nat) : String :=
  "job_recommendations:" ++ uid ++ ":" ++ cacheParams ++ ":" ++ toString limit

/-- `f"recommendations:{user_id}:{limit}"` (main line 85). -/
def mainRecKey (uid : String) (limit : Nat) : String :=
  "recommendations:" ++ uid ++ ":" ++ toString limit

/-- `database.save_user_profile` (database lines 56–89): upsert into MongoDB
and refresh the Redis profile entry with the new profile. -/
def save_user_profile (db : Mongo) (st : Redis) (p : Profile) (uid : String) :
    Mongo × Redis :=
  (mongoUpsert db uid p, rset st (userProfileKey uid) (.profile p))

/-- `database.get_user_profile` (database lines 92–129): Redis first, then
MongoDB (writing the profile back into Redis on a hit). -/
def db_get_user_profile (db : Mongo) (st : Redis) (uid : String) :
    Option Profile × Redis :=
  match rget st (userProfileKey uid) with
  | some (.profile p) => (some p, st)
  | _ =>
    match mongoGet db uid with
    | some p => (some p, rset st (userProfileKey uid) (.profile p))
    | none => (none, st)

/-- `recommendation_engine.get_cached_user_profile` (engine lines 33–55):
its own Redis check over the same key, then the database helper. -/
def engine_get_cached_user_profile (db : Mongo) (st : Redis) (uid : String) :
    Option Profile × Redis :=
  match rget st (userProfileKey uid) with
  | some (.profile p) => (some p, st)
  | _ =>
    match db_get_user_profile db st uid with
    | (some p, st2) => (some p, rset st2 (userProfileKey uid) (.profile p))
    | (none, st2) => (none, st2)

/-- Python's `x or default` / `x if x else default` on an optional string:
`None` and `""` both fall back. -/
def orDefault (q : Option String) (d : String) : String :=
  match q with
  | some s => if s = "" then d else s
  | none => d

/-- `user_profile.get("preferences", {}).get("location", "USA")` (engine
line 89): a null `preferences` raises, a null `location` yields `None`. -/
def engineLocation (p : Profile) : Except PyExc (Option String) :=
  match p.preferences with
  | .null => .error .attributeError
  | .absent => .ok (some "USA")
  | .val pr =>
    match pr.location with
    | .absent => .ok (some "USA")
    | .null => .ok none
    | .val s => .ok (some s)

/-- `recommendation_engine.generate_job_recommendations` (engine lines
57–103): check the engine-level Redis cache, else profile lookup → query →
fetch → score → refine, caching the final list. -/
def generate_job_recommendations (genQ : Profile → String)
    (fetchJobs : String → Option String → Nat → List Job)
    (scoreO : List Job → Profile → List Job)
    (refineO : List Job → Profile → Nat → List Job)
    (db : Mongo) (st : Redis) (uid : String)
    (query loc : Option String) (limit : Nat) : Except PyExc (List Job × Redis) :=
  let cacheParams := orDefault query "auto" ++ ":" ++ orDefault loc "any"
  let key := jobRecKey uid cacheParams limit
  match rget st key with
  | some (.recs l) => .ok (l, st)
  | _ =>
    match engine_get_cached_user_profile db st uid with
    | (none, st2) => .ok ([], st2)
    | (some p, st2) =>
      let sq := orDefault query (genQ p)
      match (match loc with
             | some l => if l = "" then engineLocation p else .ok (some l)
             | none => engineLocation p) with
      | .error e => .error e
      | .ok sl =>
        let raw := fetchJobs sq sl (limit * 2)
        let scored := scoreO raw p
        let final := refineO scored p limit
        .ok (final, rset st2 key (.recs final))

/-- `recommendation_engine.clear_user_job_cache` (engine lines 105–119):
drop every engine-level recommendation entry and the profile entry.
Defined by the engine "for use after profile updates" — but never invoked
from the profile-update path. -/
def clear_user_job_cache (st : Redis) (uid : String) : Redis :=
  rdel (rdelPrefix st ("job_recommendations:" ++ uid ++ ":")) (userProfileKey uid)

/-- The FastAPI process state: MongoDB, Redis, and `main.py`'s
`lru_cache`-decorated profile cache. -/
structure SysState where
  mongo : Mongo
  redis : Redis
  lruProfiles : List (String × Option Profile)

/-- `main.clear_user_cache` (main lines 119–135): delete the API-level
`recommendations:{uid}:*` Redis keys and clear the WHOLE profile LRU
(`cache_clear()` has no per-key variant). -/
def main_clear_user_cache (s : SysState) (uid : String) : SysState :=
  { s with redis := rdelPrefix s.redis ("recommendations:" ++ uid ++ ":"),
           lruProfiles := [] }

/-- `main.parse_query` (main lines 50–65) after a successful LLM parse:
save the new profile, then clear the API-level caches for that user.
`parsed_data["user_id"]` raises `KeyError` when absent. -/
def parse_query (parsed : Profile) (s : SysState) : Except PyExc SysState :=
  match parsed.user_id with
  | .val uid =>
    let mr := save_user_profile s.mongo s.redis parsed uid
    .ok (main_clear_user_cache { mongo := mr.1, redis := mr.2, lruProfiles := s.lruProfiles } uid)
  | _ => .error .keyError

/-- `main.get_recommendations` (main lines 82–109): API-level Redis cache,
else generate via the engine and cache; an empty result raises HTTP 404
(modelled as an exception, nothing cached). -/
def main_get_recommendations (genQ : Profile → String)
    (fetchJobs : String → Option String → Nat → List Job)
    (scoreO : List Job → Profile → List Job)
    (refineO : List Job → Profile → Nat → List Job)
    (s : SysState) (uid : String) (limit : Nat) : Except PyExc (List Job × SysState) :=
  let key := mainRecKey uid limit
  match rget s.redis key with
  | some (.recs l) => .ok (l, s)
  | _ =>
    match generate_job_recommendations genQ fetchJobs scoreO refineO s.mongo s.redis uid
        none none limit with
    | .error e => .error e
    | .ok (recs, st2) =>
      if recs.isEmpty then .error .httpException
      else .ok (recs, { s with redis := rset st2 key (.recs recs) })

/-- C4 scenario oracles: a pipeline whose output depends visibly on the
profile (the generated query is the first interest, and the fetched record's
title is the query). -/
def c4genQ : Profile → String := fun p =>
  match p.interests with
  | .val (x :: _) => x
  | _ => "none"

def c4fetch : String → Option String → Nat → List Job := fun sq _ _ => [{ title := sq }]

def c4score : List Job → Profile → List Job := fun jobs _ => jobs

def c4refine : List Job → Profile → Nat → List Job := fun jobs _ lim => jobs.take lim

def c4POld : Profile := { user_id := .val "u1", interests := .val ["AI"] }

def c4PNew : Profile := { user_id := .val "u1", interests := .val ["books"] }

def c4S0 : SysState := { mongo := [("u1", c4POld)], redis := [], lruProfiles := [] }

/-- The state after the first recommendation request (both cache layers
populated from the old profile). -/
def c4S1 : SysState :=
  match main_get_recommendations c4genQ c4fetch c4score c4refine c4S0 "u1" 5 with
  | .ok r => r.2
  | .error _ => c4S0

/-- The state after the profile update for `"u1"` (save + cache clearing). -/
def c4S2 : SysState :=
  match parse_query c4PNew c4S1 with
  | .ok s => s
  | .error _ => c4S1

/-- The second recommendation request, after the update and within the TTL. -/
def c4Result : Except PyExc (List Job × SysState) :=
  main_get_recommendations c4genQ c4fetch c4score c4refine c4S2 "u1" 5

/-- Claim C4: Evaluation at the failing input: request recommendations for
`"u1"`, update the profile through `parse_query`, request again within the
TTL.  The second request still returns the list computed from the
pre-update profile (`title = "AI"`), because `parse_query` clears only the
`recommendations:u1:*` keys and the LRU — the engine's
`job_recommendations:u1:auto:any:5` entry survives and is served, even
though a fresh run of the pipeline on the new profile would return
`title = "books"`. -/
theorem stale_cache_after_profile_update :
    (c4Result.map (fun r => r.1)) = .ok [{ title := "AI" }] ∧
    c4refine (c4score (c4fetch (c4genQ c4PNew) (some "USA") 10) c4PNew) c4PNew 5
      = [{ title := "books" }] ∧
    ([{ title := "AI" }] : List Job) ≠ [{ title := "books" }] :=
  ⟨rfl, rfl, by decide⟩
